import Mathlib

/-!
Verification of the Investec → Actual Budget sync server (script version
6.3.1, "Enhanced Profile Management"): a shallow embedding of the worker's
transaction transformer, category reconciler, account reconciler, per-account
sync loop, budget-download retry branch, worker teardown, and the
orchestrator's admission control, together with proofs about each.

JavaScript-semantics conventions used throughout:
* optional / possibly-`undefined` string fields are `Option String`;
  `none` models `undefined`, and JS truthiness of a string value is
  "present and non-empty";
* string primitives (`toLowerCase`, `trim`, `includes`, `substring`,
  `slice`, `split`, `replace`) are modelled character-wise over `String.data`;
* `Math.round` on a non-negative JS number is `⌊x + 1/2⌋` (half away from
  zero is half up for the magnitudes involved); JS numbers carrying exact
  decimal amounts are modelled as rationals;
* a thrown exception is `Except.error` with the message string.
-/

/-- Truthiness of a JS string value: `undefined`/`null` and `""` are falsy. -/
def jsTruthy : Option String → Bool
  | none => false
  | some s => !s.data.isEmpty

/-- The JS `a || b` operator on string values. -/
def jsOr (a b : Option String) : Option String :=
  if jsTruthy a then a else b

/-- The JS `s.toLowerCase()` (character-wise, as `String.toLower`). -/
def jsToLower (s : String) : String :=
  ⟨s.data.map Char.toLower⟩

/-- The JS `s.trim()`: strip leading and trailing whitespace. -/
def jsTrim (s : String) : String :=
  ⟨((s.data.dropWhile Char.isWhitespace).reverse.dropWhile Char.isWhitespace).reverse⟩

/-- The JS `s.includes(sub)`: substring containment. -/
def jsIncludes (s sub : String) : Bool :=
  decide (sub.data <:+: s.data)

/-- The JS `s.substring(0, n)` / `s.take`. -/
def jsTake (s : String) (n : Nat) : String :=
  ⟨s.data.take n⟩

/-- The JS `s.slice(-n)`: the last `n` characters (the whole string if shorter). -/
def jsSliceLast (s : String) (n : Nat) : String :=
  ⟨s.data.drop (s.data.length - n)⟩

/-- The JS `s.split('T')[0]` used to strip a time-of-day component. -/
def jsSplitTHead (s : String) : String :=
  ⟨s.data.takeWhile (· ≠ 'T')⟩

/-- The JS `Math.round` for the amounts involved: round half up, `⌊x + 1/2⌋`. -/
def jsRound (q : ℚ) : ℤ :=
  ⌊q + 1 / 2⌋

/-- The JS statement `if (date && date.includes('T')) date = date.split('T')[0]`
as a value transformation on the possibly-absent date. -/
def jsStripDateValue (o : Option String) : Option String :=
  match o with
  | none => none
  | some s => if !s.data.isEmpty && jsIncludes s "T" then some (jsSplitTHead s) else some s

/-- The JS value-position default `x || "dflt"` for a string variable. -/
def jsGetD (o : Option String) (dflt : String) : String :=
  match jsOr o (some dflt) with
  | some d => d
  | none => dflt

/-- A provider (Investec) transaction as consumed by `transformTransaction`:
the fields the worker reads, with `accountId` already attached by the
per-account loop (`{ ...t, accountId: invAcc.accountId }`). -/
structure ProviderTransaction where
  accountId : String
  amount : ℚ
  type : String
  transactionDate : Option String
  postingDate : Option String
  actionDate : Option String
  valueDate : Option String
  transactionType : Option String
  cardNumber : Option String
  description : Option String
  postedOrder : Option Int
  deriving DecidableEq, Repr

/-- The canonical ledger transaction produced by `transformTransaction`
(the object passed to `actual.importTransactions`). -/
structure CanonicalTransaction where
  date : Option String
  amount : ℤ
  payee_name : String
  imported_payee : String
  notes : String
  imported_id : String
  cleared : Bool
  deriving DecidableEq, Repr

/-- Embedding of the worker's `transformTransaction` (script v6.3.1):

`let amount = Math.round(t.amount * 100); if (t.type === 'DEBIT') amount =
-Math.abs(amount); else amount = Math.abs(amount);` then the date chain
`t.transactionDate || t.postingDate || t.actionDate`, `if (!date) date =
t.valueDate`, time stripping on `'T'`, notes concatenation, payee fallback,
`safeDesc = payee.replace(/[^a-z0-9]/gi, '').substring(0, 30)`,
`orderSuffix` from `postedOrder` (when neither `undefined` nor `null`) or
`Math.abs(amount)`, and finally the template literal
`importId = t.accountId + ":" + idDate + ":" + safeDesc + orderSuffix`. -/
def transformTransaction (t : ProviderTransaction) : CanonicalTransaction :=
  let amount0 : ℤ := jsRound (t.amount * 100)
  let amount : ℤ := if t.type = "DEBIT" then -(amount0.natAbs : ℤ) else (amount0.natAbs : ℤ)
  let date1 : Option String := jsOr (jsOr (jsOr t.transactionDate t.postingDate) t.actionDate) t.valueDate
  let date : Option String := jsStripDateValue date1
  let notesParts : List String :=
    (match t.transactionType with
     | some tt => if !tt.data.isEmpty then ["Type: " ++ tt] else []
     | none => []) ++
    (match t.cardNumber with
     | some cn => if !cn.data.isEmpty then ["Ref: " ++ cn] else []
     | none => [])
  let notes : String := String.intercalate " | " notesParts
  let payee : String := jsGetD t.description "Unknown Payee"
  let safeDesc : String := jsTake ⟨payee.data.filter Char.isAlphanum⟩ 30
  let orderSuffix : String :=
    match t.postedOrder with
    | some n => ":" ++ toString n
    | none => ":" ++ toString amount.natAbs
  let idDate : String := jsGetD date "nodate"
  let importId : String := t.accountId ++ ":" ++ idDate ++ ":" ++ safeDesc ++ orderSuffix
  { date := date
    amount := amount
    payee_name := payee
    imported_payee := payee
    notes := notes
    imported_id := importId
    cleared := true }

/-- Stripping the time-of-day component of a date string: everything from the
first `'T'` on is dropped (`split('T')[0]`), and a string with no `'T'` is
unchanged. -/
def stripTimeOfDay (s : String) : String :=
  if jsIncludes s "T" then jsSplitTHead s else s

/-- The raw selected date of a provider transaction, before time stripping:
`t.transactionDate || t.postingDate || t.actionDate`, then
`if (!date) date = t.valueDate`, which collapses to a four-way JS `||` chain. -/
def selectedDateRaw (t : ProviderTransaction) : Option String :=
  jsOr (jsOr (jsOr t.transactionDate t.postingDate) t.actionDate) t.valueDate

/-- The date component used inside the dedup key: the selected, stripped date,
or the literal `"nodate"` when it is absent or empty (`date || 'nodate'`). -/
def idDateOf (t : ProviderTransaction) : String :=
  jsGetD ((selectedDateRaw t).map stripTimeOfDay) "nodate"

/-- The payee of a provider transaction: `t.description || 'Unknown Payee'`. -/
def payeeOf (t : ProviderTransaction) : String :=
  jsGetD t.description "Unknown Payee"

/-- The sanitized description used inside the dedup key: the payee with all
non-alphanumeric characters removed, truncated to 30 characters. -/
def safeDescOf (t : ProviderTransaction) : String :=
  jsTake ⟨(payeeOf t).data.filter Char.isAlphanum⟩ 30

/-- The signed minor-unit amount, as the spec describes it: the magnitude
converted to minor units and rounded to the nearest unit, negated exactly for
a `DEBIT` type flag. -/
def specSignedMinorUnits (t : ProviderTransaction) : ℤ :=
  (if t.type = "DEBIT" then -1 else 1) * jsRound (t.amount * 100)

/-- The ordinal component of the dedup key: the provider-supplied per-day
ordinal `postedOrder` when present (including `0`), else the absolute
minor-unit amount as a fallback. -/
def ordinalOf (t : ProviderTransaction) : String :=
  match t.postedOrder with
  | some n => toString n
  | none =>
    toString (if t.type = "DEBIT" then -((jsRound (t.amount * 100)).natAbs : ℤ)
              else ((jsRound (t.amount * 100)).natAbs : ℤ)).natAbs

/-- The §8 scenario transaction for the dedup-key claim: account `"ACC1"`,
debit of magnitude 150.00, per-day ordinal 7, dated 2024-03-01. -/
def c1tx : ProviderTransaction :=
  { accountId := "ACC1"
    amount := 150
    type := "DEBIT"
    transactionDate := some "2024-03-01"
    postingDate := none
    actionDate := none
    valueDate := none
    transactionType := some "CardPurchase"
    cardNumber := none
    description := some "Coffee Shop"
    postedOrder := some 7 }

/-- The amount-and-sign test transaction: a DEBIT of magnitude 150.00. -/
def c7tx : ProviderTransaction :=
  { accountId := "ACC7"
    amount := 150
    type := "DEBIT"
    transactionDate := some "2024-03-01"
    postingDate := none
    actionDate := none
    valueDate := none
    transactionType := none
    cardNumber := none
    description := some "Coffee"
    postedOrder := some 7 }

/-- The date-fallback test transaction: no effective/posting date, an action
date carrying a time-of-day component, and a value date. -/
def c8tx : ProviderTransaction :=
  { accountId := "ACC8"
    amount := 10
    type := "CREDIT"
    transactionDate := none
    postingDate := some ""
    actionDate := some "2024-02-02T08:30:00"
    valueDate := some "2024-01-01"
    transactionType := none
    cardNumber := none
    description := some "Refund"
    postedOrder := some 1 }

/-- The per-account loop attaches the owning account id to each raw provider
transaction: `.map(t => ({ ...t, accountId: invAcc.accountId }))`. -/
def attachAccountId (accId : String) (t : ProviderTransaction) : ProviderTransaction :=
  { t with accountId := accId }

/-- The batch handed to `actual.importTransactions` for one account:
raw transactions with the account id attached, transformed, and filtered by
`.filter(t => t.date)` — transactions without a usable date are dropped. -/
def importBatch (accId : String) (rawTxs : List ProviderTransaction) : List CanonicalTransaction :=
  ((rawTxs.map (attachAccountId accId)).map transformTransaction).filter (fun u => jsTruthy u.date)

/-- A dated transaction for the malformed-transaction claim. -/
def c9good : ProviderTransaction :=
  { accountId := ""
    amount := 20
    type := "CREDIT"
    transactionDate := some "2024-05-05"
    postingDate := none
    actionDate := none
    valueDate := none
    transactionType := none
    cardNumber := none
    description := some "Salary"
    postedOrder := some 2 }

/-- A transaction with no usable date field at all. -/
def c9bad : ProviderTransaction :=
  { accountId := ""
    amount := 30
    type := "DEBIT"
    transactionDate := none
    postingDate := none
    actionDate := none
    valueDate := none
    transactionType := none
    cardNumber := none
    description := some "Mystery"
    postedOrder := some 3 }

/-- An Investec provider account as read by the per-account loop. -/
structure InvAccount where
  accountId : String
  accountName : String
  accountNumber : String
  productName : String
  referenceName : Option String
  deriving DecidableEq

/-- An Actual (ledger) account as returned by `actual.getAccounts()`. -/
structure ActualAccount where
  id : Nat
  name : String
  deriving DecidableEq

/-- The display name derived for a provider account (script v6.3.1):
start from `productName + " " + accountNumber.slice(-4)`, replace it with
`referenceName` when that is present, non-blank after trimming, and distinct
from the trimmed raw `accountName`, then trim. -/
def deriveUniqueName (a : InvAccount) : String :=
  let base := a.productName ++ " " ++ jsSliceLast a.accountNumber 4
  let u := match a.referenceName with
    | some r =>
      if !r.data.isEmpty && !(jsTrim r == "") && !(jsTrim r == jsTrim a.accountName) then r
      else base
    | none => base
  jsTrim u

/-- The account type inferred from the product name: `credit` when the
lowercased product name (`invAcc.productName || ""`) contains `"credit"`,
else `checking`. -/
def deriveAccType (a : InvAccount) : String :=
  if jsIncludes (jsToLower a.productName) "credit" then "credit" else "checking"

/-- The v6.3.1 ledger-account lookup of the per-account loop:
`actualAccounts.find(a => a.name.toLowerCase().trim() === uniqueName.toLowerCase())`. -/
def matchAccount (accounts : List ActualAccount) (uniqueName : String) : Option ActualAccount :=
  accounts.find? (fun a => jsTrim (jsToLower a.name) == jsToLower uniqueName)

/-- The matcher as the spec describes it (for comparison with the code's
`matchAccount`): case-insensitive exact name match first, and when no exact
match exists, case-insensitive substring containment of the derived name in a
ledger account's name. -/
def specClaimedMatchAccount (accounts : List ActualAccount) (uniqueName : String) :
    Option ActualAccount :=
  match accounts.find? (fun a => jsTrim (jsToLower a.name) == jsToLower uniqueName) with
  | some a => some a
  | none => accounts.find? (fun a => jsIncludes (jsToLower a.name) (jsToLower uniqueName))

/-- The ledger accounts for the substring-fallback scenario. -/
def c3accounts : List ActualAccount :=
  [{ id := 1, name := "My Cheque Account" }]

/-- Outcomes of the external calls one sync execution makes, as consumed by
the per-account loop: `actual.createAccount` (new id or thrown error), the
provider transaction fetch for an account id, and `actual.importTransactions`
(count of added/updated rows or thrown error). -/
structure SyncEnv where
  createResult : String → Except String Nat
  fetchResult : String → Except String (List ProviderTransaction)
  importResult : Nat → List CanonicalTransaction → Except String Nat

/-- Observable effects of the per-account loop: ledger-account creation calls,
the error log emitted when a creation fails, and import calls. -/
inductive SyncAction where
  | createAccountCall (name : String) (accType : String)
  | createFailedLog (name : String) (msg : String)
  | importCall (ledgerAccountId : Nat) (txs : List CanonicalTransaction)
  deriving DecidableEq

/-- Account-resolution step of the loop body: use the matched ledger account,
or create one (`try { actual.createAccount(...) } catch { log error; continue }`).
`none` in the second component means the account is skipped (`continue`).
A successful creation is followed in the source by a re-fetch of
`actual.getAccounts()` and a lookup by the fresh id, modelled as the created
account appended to the list. -/
def resolveAccount (env : SyncEnv) (actualAccounts : List ActualAccount) (invAcc : InvAccount) :
    List SyncAction × Option (ActualAccount × List ActualAccount) :=
  let uniqueName := deriveUniqueName invAcc
  let accType := deriveAccType invAcc
  match matchAccount actualAccounts uniqueName with
  | some m => ([], some (m, actualAccounts))
  | none =>
    match env.createResult uniqueName with
    | .ok newId =>
      ([.createAccountCall uniqueName accType],
       some (⟨newId, uniqueName⟩, actualAccounts ++ [⟨newId, uniqueName⟩]))
    | .error e =>
      ([.createAccountCall uniqueName accType,
        .createFailedLog uniqueName e], none)

/-- Transaction fetch/transform/import for one bound account. Neither the
fetch nor the import call is wrapped in a `try` in the source, so a thrown
error propagates (`Except.error`). The import only happens when the fetch
returned at least one raw transaction. -/
def fetchAndImport (env : SyncEnv) (invAcc : InvAccount) (matched : ActualAccount) :
    List SyncAction × Except String Nat :=
  match env.fetchResult invAcc.accountId with
  | .error e => ([], .error e)
  | .ok rawTxs =>
    if rawTxs.length > 0 then
      let actualTxs := importBatch invAcc.accountId rawTxs
      match env.importResult matched.id actualTxs with
      | .error e => ([.importCall matched.id actualTxs], .error e)
      | .ok count => ([.importCall matched.id actualTxs], .ok count)
    else ([], .ok 0)

/-- The worker's per-account loop (`for (const invAcc of investecData.accounts)`),
accumulating `totalImported`. A create failure skips just that account; an
uncaught fetch/import error ends the whole loop with that error. -/
def processAccounts (env : SyncEnv) :
    List InvAccount → List ActualAccount → Nat → List SyncAction × Except String Nat
  | [], _, total => ([], .ok total)
  | invAcc :: rest, actualAccounts, total =>
    match resolveAccount env actualAccounts invAcc with
    | (acts, none) =>
      let (acts', r) := processAccounts env rest actualAccounts total
      (acts ++ acts', r)
    | (acts, some (matched, accounts')) =>
      match fetchAndImport env invAcc matched with
      | (acts2, .error e) => (acts ++ acts2, .error e)
      | (acts2, .ok count) =>
        let (acts', r) := processAccounts env rest accounts' (total + count)
        (acts ++ acts2 ++ acts', r)

/-- Provider account "A" for the failure-containment scenario. -/
def c2invA : InvAccount :=
  { accountId := "IA"
    accountName := "Mr S Gordon"
    accountNumber := "10010001111"
    productName := "Private Bank Account"
    referenceName := some "Acct A" }

/-- Provider account "B" for the failure-containment scenario. -/
def c2invB : InvAccount :=
  { accountId := "IB"
    accountName := "Mr S Gordon"
    accountNumber := "10010002222"
    productName := "Private Bank Account"
    referenceName := some "Acct B" }

/-- Ledger accounts already bound to "A" and "B" by name. -/
def c2ledger : List ActualAccount :=
  [{ id := 1, name := "Acct A" }, { id := 2, name := "Acct B" }]

/-- Environment in which account "A"'s transaction fetch throws and account
"B"'s fetch would succeed with one dated transaction. -/
def c2env : SyncEnv :=
  { createResult := fun _ => .error "unused"
    fetchResult := fun accId =>
      if accId == "IA" then .error "Investec fetch failed"
      else .ok [c9good]
    importResult := fun _ txs => .ok txs.length }

/-- Provider account "C" with no ledger counterpart, used to exercise the
creation-failure branch. -/
def c2invC : InvAccount :=
  { accountId := "IC"
    accountName := "Mr S Gordon"
    accountNumber := "10010003333"
    productName := "Private Bank Account"
    referenceName := some "Acct C" }

/-- Environment in which account creation succeeds, account "A"'s fetch
returns one dated transaction whose import then throws, and any other
account's fetch throws. -/
def c2env2 : SyncEnv :=
  { createResult := fun _ => .ok 7
    fetchResult := fun accId =>
      if accId == "IA" then .ok [c9good]
      else .error "fetch failed after create"
    importResult := fun _ _ => .error "Import failed" }

/-- A category group in the ledger (`actual.getCategoryGroups()`). -/
structure CatGroup where
  id : Nat
  name : String
  deriving DecidableEq

/-- A category in the ledger (`actual.getCategories()`): name plus owning
group id. -/
structure Category where
  id : Nat
  group_id : Nat
  name : String
  deriving DecidableEq

/-- The ledger's category state, with a fresh-id counter standing in for the
ledger service's id generation. -/
structure Ledger where
  groups : List CatGroup
  cats : List Category
  nextId : Nat
  deriving DecidableEq

/-- Id freshness: every existing group and category id is below the counter,
as holds for the ledger service's always-fresh ids. -/
def Ledger.Fresh (st : Ledger) : Prop :=
  (∀ g ∈ st.groups, g.id < st.nextId) ∧ (∀ c ∈ st.cats, c.id < st.nextId)

instance (st : Ledger) : Decidable st.Fresh := by
  unfold Ledger.Fresh
  infer_instance

/-- The ledger call `actual.createCategoryGroup(...)` with a name: returns the
new group's id. Creation is modelled as always succeeding (the source wraps it
in `try`/`catch` only against remote failures). -/
def createCategoryGroup (name : String) (st : Ledger) : Nat × Ledger :=
  (st.nextId, ⟨st.groups ++ [⟨st.nextId, name⟩], st.cats, st.nextId + 1⟩)

/-- The ledger call `actual.createCategory(...)` with a name and group id. -/
def createCategory (name : String) (gid : Nat) (st : Ledger) : Ledger :=
  ⟨st.groups, st.cats ++ [⟨st.nextId, gid, name⟩], st.nextId + 1⟩

/-- The inner loop of `syncCategories` over one group's category names:
`existingCategories.find(c => c.group_id === group.id && c.name === catName)`
against the snapshot fetched once at the start of the run, creating the
category when absent and counting `catsCreated`. -/
def syncCatsInGroup (snapshot : List Category) (gid : Nat) :
    List String → Ledger → Nat → Ledger × Nat
  | [], st, catsCreated => (st, catsCreated)
  | n :: rest, st, catsCreated =>
    if (snapshot.find? (fun c => c.group_id == gid && c.name == n)).isSome then
      syncCatsInGroup snapshot gid rest st catsCreated
    else
      syncCatsInGroup snapshot gid rest (createCategory n gid st) (catsCreated + 1)

/-- The outer loop of `syncCategories` over `Object.entries(categoryTree)`:
look the group up by exact name; create it when missing, re-fetch the groups
and look the fresh one up by id (`if (!group) continue`); then reconcile the
group's category names. -/
def syncCategoriesLoop (snapshot : List Category) :
    List (String × List String) → Ledger → Nat → Nat → Ledger × Nat × Nat
  | [], st, g, c => (st, g, c)
  | (groupName, catNames) :: rest, st, g, c =>
    match st.groups.find? (fun gr => gr.name == groupName) with
    | some gr =>
      let (st', c') := syncCatsInGroup snapshot gr.id catNames st 0
      syncCategoriesLoop snapshot rest st' g (c + c')
    | none =>
      let (newId, st1) := createCategoryGroup groupName st
      match st1.groups.find? (fun gr => gr.id == newId) with
      | none => syncCategoriesLoop snapshot rest st1 (g + 1) c
      | some gr =>
        let (st', c') := syncCatsInGroup snapshot gr.id catNames st1 0
        syncCategoriesLoop snapshot rest st' (g + 1) (c + c')

/-- The worker's `syncCategories(categoryTree)` helper: fetch the existing
groups and categories, then create every missing group and every missing
category, returning the final ledger state and the
`(groupsCreated, catsCreated)` counters. -/
def syncCategories (tax : List (String × List String)) (st : Ledger) : Ledger × Nat × Nat :=
  syncCategoriesLoop st.cats tax st 0 0

/-- The §8 taxonomy for the category-reconciler scenario. -/
def c4tax : List (String × List String) :=
  [("Food", ["Groceries"])]

/-- A ledger holding one pre-existing unrelated group and category. -/
def c4ledger : Ledger :=
  { groups := [{ id := 0, name := "Bills" }]
    cats := [{ id := 1, group_id := 0, name := "Rent" }]
    nextId := 2 }

/-- One taxonomy entry is reconciled in a ledger state: the group lookup by
exact name succeeds, and every category name of the entry exists in the
ledger under that group's id. -/
def GroupReconciled (st : Ledger) (entry : String × List String) : Prop :=
  ∃ gr, st.groups.find? (fun g => g.name == entry.1) = some gr ∧
    ∀ n ∈ entry.2, ∃ c' ∈ st.cats, c'.group_id = gr.id ∧ c'.name = n

/-- The error classification of `downloadBudget` failures the worker treats as
encryption-related: includes-checks for `invalid-password` and `encryption`
on the lowercased message. -/
def errIsEncryptionClass (msg : String) : Bool :=
  jsIncludes (jsToLower msg) "invalid-password" || jsIncludes (jsToLower msg) "encryption"

/-- The error classification for a missing remote budget file: includes-checks
for `could not get remote files` and `not found` on the lowercased message. -/
def errIsNotFoundClass (msg : String) : Bool :=
  jsIncludes (jsToLower msg) "could not get remote files" || jsIncludes (jsToLower msg) "not found"

/-- The actionable message raised for a budget file that is not on the server. -/
def budgetNotFoundMessage (budgetId : String) : String :=
  "SERVER ERROR: Budget file \"" ++ budgetId ++ "\" not found.\n\n" ++
  "⚠️ ACTION REQUIRED: Open Actual in browser -> File > Close File.\n" ++
  "Verify it says \"Remote\". If \"Local\", Export/Import to upload it."

/-- The worker's budget-download step with its retry branch (script v6.3.1).
`att b` is the outcome of the `actual.downloadBudget` call where `b` records
whether the `password` option object was passed to the call: the first
attempt passes no password object; on an encryption-classified failure with a
password configured, exactly one retry with the password is made, and its
failure is surfaced as `Decryption Failed`; all other failures are surfaced
without any retry. Returns the list of attempts made (as their password
flags) plus the overall outcome. -/
def downloadBudgetWithRetry (budgetId : String) (passwordSupplied : Bool)
    (att : Bool → Except String Unit) : List Bool × Except String Unit :=
  match att false with
  | .ok _ => ([false], .ok ())
  | .error dlErr =>
    if errIsEncryptionClass dlErr then
      if passwordSupplied then
        match att true with
        | .ok _ => ([false, true], .ok ())
        | .error retryErr => ([false, true], .error ("Decryption Failed: " ++ retryErr))
      else ([false], .error dlErr)
    else if errIsNotFoundClass dlErr then
      ([false], .error (budgetNotFoundMessage budgetId))
    else ([false], .error dlErr)

/-- A download oracle whose passwordless attempt fails with a file-encryption
error and whose with-password attempt succeeds. -/
def c5att : Bool → Except String Unit :=
  fun withPassword => if withPassword then .ok () else .error "Encryption key mismatch: invalid-password"

/-- State observed at worker termination: whether `actual.shutdown()` ran,
the exit code, and whether a result message was sent to the parent. -/
structure WorkerTeardownState where
  shutdownCalled : Bool
  exitCode : Option Nat
  resultSent : Bool
  deriving DecidableEq

/-- The steps at the tail of the worker's async IIFE: the `catch` block's
error log, `process.send`, and `process.exit(1)`, and the `finally` block's
`actual.shutdown()` and `process.exit(0)`. -/
inductive WorkerStep where
  | logErrorStep
  | sendResultStep
  | shutdownStep
  | exitStep (code : Nat)
  deriving DecidableEq

/-- Effect of one worker step on the teardown state. -/
def applyWorkerStep (s : WorkerTeardownState) : WorkerStep → WorkerTeardownState
  | .logErrorStep => s
  | .sendResultStep => { s with resultSent := true }
  | .shutdownStep => { s with shutdownCalled := true }
  | .exitStep c => { s with exitCode := some c }

/-- Run worker steps under Node's `process.exit` semantics: `process.exit`
terminates the process immediately and never returns, so once an exit code is
set no later step — including a pending `finally` block — executes. -/
def runWorkerSteps : WorkerTeardownState → List WorkerStep → WorkerTeardownState
  | s, [] => s
  | s, step :: rest =>
    if s.exitCode.isSome then s
    else runWorkerSteps (applyWorkerStep s step) rest

/-- The worker's exit sequence: when the body threw, the `catch` block runs
(log, `process.send` of the failure result, `process.exit(1)`) before the
`finally` block (`actual.shutdown()` then `process.exit(0)`); when the body
completed, only the `finally` block runs. -/
def workerEpilogue (bodyThrew : Bool) : List WorkerStep :=
  (if bodyThrew then [.logErrorStep, .sendResultStep, .exitStep 1] else []) ++
  [.shutdownStep, .exitStep 0]

/-- The initial teardown state of a worker execution. -/
def workerInit : WorkerTeardownState :=
  { shutdownCalled := false, exitCode := none, resultSent := false }

/-- The profile fields the orchestrator's `runSync` inspects before spawning
a worker. -/
structure SyncProfileCfg where
  id : String
  name : String
  enabled : Bool
  investecClientId : String
  actualServerUrl : String
  deriving DecidableEq

/-- The orchestrator's mutable state: the `processingProfiles` set of
currently-executing profile ids. -/
structure OrchState where
  processingProfiles : List String
  deriving DecidableEq

/-- Observable effects of a sync trigger: log lines, the fork of a sync
worker, and that worker's (re)creation of its profile-keyed working
directory under the Actual data directory. -/
inductive OrchAction where
  | log (level : String) (msg : String)
  | spawnSyncWorker (profileId : String)
  | createWorkDir (profileId : String)
  deriving DecidableEq

/-- An HTTP response of the dashboard API, as status code plus body. -/
inductive HttpResponse where
  | json (status : Nat) (body : String)
  deriving DecidableEq

/-- The orchestrator's `runSync(profileId)` up to the spawn: skip when the
profile is already executing, look the profile up, check `enabled` and the
required credential fields, then admit — add the id to `processingProfiles`
and fork the worker (which recreates the profile's working directory). -/
def runSyncStep (profiles : List SyncProfileCfg) (st : OrchState) (profileId : String) :
    OrchState × List OrchAction :=
  if profileId ∈ st.processingProfiles then
    (st, [.log "info" ("Sync skipped for " ++ profileId ++ " (already running)")])
  else
    match profiles.find? (fun p => p.id == profileId) with
    | none => (st, [.log "error" ("Cannot sync: Profile " ++ profileId ++ " not found")])
    | some profile =>
      if !profile.enabled then
        (st, [.log "error" ("Cannot sync: Profile \"" ++ profile.name ++ "\" is disabled")])
      else if profile.investecClientId.data.isEmpty || profile.actualServerUrl.data.isEmpty then
        (st, [.log "error" ("Config missing for " ++ profile.name)])
      else
        ({ processingProfiles := st.processingProfiles ++ [profileId] },
         [.log "info" ("Starting Sync: " ++ profile.name ++ "..."),
          .spawnSyncWorker profileId, .createWorkDir profileId])

/-- The `POST /api/sync` handler: 400 without a profile id, an immediate 409
"busy" when the profile id is in `processingProfiles` (nothing is queued and
`runSync` is not called), else fire `runSync` and answer "started". -/
def apiSyncPost (profiles : List SyncProfileCfg) (st : OrchState) (profileId : Option String) :
    OrchState × HttpResponse × List OrchAction :=
  match profileId with
  | none => (st, .json 400 "Missing profileId", [])
  | some pid =>
    if pid ∈ st.processingProfiles then
      (st, .json 409 "busy", [])
    else
      let (st', acts) := runSyncStep profiles st pid
      (st', .json 200 "started", acts)

/-- A profile list for the admission-control scenario. -/
def c10profiles : List SyncProfileCfg :=
  [{ id := "p1", name := "Main", enabled := true,
     investecClientId := "cid", actualServerUrl := "http://srv" }]

/-- Orchestrator state with profile `"p1"` currently executing. -/
def c10busyState : OrchState :=
  { processingProfiles := ["p1"] }

theorem jsOr_of_truthy {a b : Option String} (h : jsTruthy a = true) : jsOr a b = a := by
  simp [jsOr, h]

theorem jsOr_of_falsy {a b : Option String} (h : jsTruthy a = false) : jsOr a b = b := by
  simp [jsOr, h]

theorem jsTruthy_some_iff {s : String} : jsTruthy (some s) = true ↔ s.data ≠ [] := by
  simp [jsTruthy, List.isEmpty_iff]

theorem jsIncludes_of_empty {s : String} (h : s.data = []) : jsIncludes s "T" = false := by
  simp [jsIncludes, h, List.infix_iff_prefix_suffix]

/-- The source's in-place date stripping agrees with mapping `stripTimeOfDay`
over the optional value (the emptiness guard is redundant: an empty string
contains no `'T'`). -/
theorem jsStripDateValue_eq_map (o : Option String) :
    jsStripDateValue o = o.map stripTimeOfDay := by
  cases o with
  | none => rfl
  | some s =>
    simp only [jsStripDateValue, Option.map_some']
    cases he : s.data.isEmpty with
    | true =>
      have hdata : s.data = [] := by simpa [List.isEmpty_iff] using he
      simp [he, stripTimeOfDay, jsIncludes_of_empty hdata]
    | false =>
      cases hT : jsIncludes s "T" with
      | true => simp [he, hT, stripTimeOfDay]
      | false => simp [he, hT, stripTimeOfDay]

/-- The transformer's date field is the four-way `||` selection with the
time-of-day component stripped. -/
theorem transformTransaction_date (t : ProviderTransaction) :
    (transformTransaction t).date = (selectedDateRaw t).map stripTimeOfDay := by
  simp only [transformTransaction]
  rw [jsStripDateValue_eq_map]
  rfl

/-- Claim C1 (counterexample): for the §8 scenario transaction — account
"ACC1", per-day ordinal 7, date 2024-03-01 — the dedup key produced by
`transformTransaction` does not contain the substring "ACC1:7:2024-03-01:"
claimed by the spec: the ordinal is appended last, not placed second. -/
theorem c1_claimed_key_order_counterexample :
    (transformTransaction c1tx).imported_id = "ACC1:2024-03-01:CoffeeShop:7" ∧
    ¬ ("ACC1:7:2024-03-01:".data <:+: (transformTransaction c1tx).imported_id.data) := by
  refine ⟨by decide, by decide⟩

/-- Claim C1 (amended): the dedup key is composed as
`accountId : date : sanitized-description-prefix : ordinal` — in that
component order — where the ordinal is the provider-supplied `postedOrder`
(including 0) when present and otherwise the absolute minor-unit amount. -/
theorem c1_dedup_key_composition (t : ProviderTransaction) :
    (transformTransaction t).imported_id =
      t.accountId ++ ":" ++ idDateOf t ++ ":" ++ safeDescOf t ++ ":" ++ ordinalOf t := by
  simp only [transformTransaction, idDateOf, safeDescOf, payeeOf, ordinalOf, selectedDateRaw]
  rw [jsStripDateValue_eq_map]
  cases t.postedOrder with
  | none => simp [String.append_assoc]
  | some n => simp [String.append_assoc]

/-- Claim C7: the transformed amount is the unsigned magnitude converted to
minor units and rounded to the nearest unit, negated exactly when the type
flag is DEBIT. -/
theorem c7_amount_sign (t : ProviderTransaction) (h : 0 ≤ t.amount) :
    (transformTransaction t).amount = specSignedMinorUnits t := by
  have h100 : (0 : ℚ) ≤ t.amount * 100 := by positivity
  have hfloor : 0 ≤ jsRound (t.amount * 100) := by
    unfold jsRound
    exact Int.le_floor.mpr (by push_cast; linarith)
  have habs : ((jsRound (t.amount * 100)).natAbs : ℤ) = jsRound (t.amount * 100) :=
    Int.natAbs_of_nonneg hfloor
  simp only [transformTransaction, specSignedMinorUnits]
  by_cases ht : t.type = "DEBIT" <;> simp [ht, habs]

/-- Claim C7 (witness): a DEBIT of magnitude 150.00 yields amount -15000. -/
theorem c7_amount_sign_witness :
    (0 : ℚ) ≤ c7tx.amount ∧ (transformTransaction c7tx).amount = -15000 := by
  refine ⟨by norm_num [c7tx], ?_⟩
  rw [c7_amount_sign c7tx (by norm_num [c7tx])]
  norm_num [specSignedMinorUnits, jsRound, c7tx]

theorem stripTimeOfDay_no_T (s : String) : 'T' ∉ (stripTimeOfDay s).data := by
  unfold stripTimeOfDay
  cases hT : jsIncludes s "T" with
  | true =>
    simp only [hT, if_true]
    intro hmem
    have h2 := List.mem_takeWhile_imp (show 'T' ∈ s.data.takeWhile (· ≠ 'T') from hmem)
    simp at h2
  | false =>
    simp only [hT, Bool.false_eq_true, if_false]
    intro hmem
    have hinf : ("T".data <:+: s.data) := by
      obtain ⟨l1, l2, hsplit⟩ := List.append_of_mem hmem
      exact ⟨l1, l2, by rw [hsplit]; simp⟩
    simp [jsIncludes, hinf] at hT

theorem selectedDateRaw_of_primary (t : ProviderTransaction)
    (h : jsTruthy (jsOr t.transactionDate t.postingDate) = true) :
    selectedDateRaw t = jsOr t.transactionDate t.postingDate := by
  unfold selectedDateRaw
  rw [jsOr_of_truthy h, jsOr_of_truthy h]

/-- Claim C8: the transformer prefers the effective/posting date
(`transactionDate || postingDate`), falls back to the action date and then
the value date only when the earlier fields are absent, and strips any
time-of-day component from whichever date it selects. -/
theorem c8_date_selection (t : ProviderTransaction) :
    (jsTruthy (jsOr t.transactionDate t.postingDate) = true →
      ∃ s, jsOr t.transactionDate t.postingDate = some s ∧
        (transformTransaction t).date = some (stripTimeOfDay s)) ∧
    (jsTruthy t.transactionDate = false → jsTruthy t.postingDate = false →
     jsTruthy t.actionDate = true →
      ∃ s, t.actionDate = some s ∧
        (transformTransaction t).date = some (stripTimeOfDay s)) ∧
    (jsTruthy t.transactionDate = false → jsTruthy t.postingDate = false →
     jsTruthy t.actionDate = false →
      (transformTransaction t).date = t.valueDate.map stripTimeOfDay) ∧
    (∀ s, (transformTransaction t).date = some s → 'T' ∉ s.data) := by
  refine ⟨?_, ?_, ?_, ?_⟩
  · intro h
    rw [transformTransaction_date, selectedDateRaw_of_primary t h]
    cases hj : jsOr t.transactionDate t.postingDate with
    | none => rw [hj] at h; simp [jsTruthy] at h
    | some s => exact ⟨s, rfl, by simp⟩
  · intro h1 h2 h3
    rw [transformTransaction_date]
    unfold selectedDateRaw
    rw [jsOr_of_falsy h1, jsOr_of_falsy h2, jsOr_of_truthy h3]
    cases ha : t.actionDate with
    | none => rw [ha] at h3; simp [jsTruthy] at h3
    | some s => exact ⟨s, rfl, by simp⟩
  · intro h1 h2 h3
    rw [transformTransaction_date]
    unfold selectedDateRaw
    rw [jsOr_of_falsy h1, jsOr_of_falsy h2, jsOr_of_falsy h3]
  · intro s hs
    rw [transformTransaction_date] at hs
    cases hsel : selectedDateRaw t with
    | none => rw [hsel] at hs; simp at hs
    | some u =>
      rw [hsel] at hs
      simp only [Option.map_some', Option.some.injEq] at hs
      rw [← hs]
      exact stripTimeOfDay_no_T u

/-- Claim C8 (witness): with no effective/posting date and an action date of
"2024-02-02T08:30:00", the transformer selects the action date and strips the
time component. -/
theorem c8_date_selection_witness :
    ∃ s, c8tx.actionDate = some s ∧
      (transformTransaction c8tx).date = some (stripTimeOfDay s) :=
  (c8_date_selection c8tx).2.1 (by decide) (by decide) (by decide)

/-- Claim C9: the batch passed to the import call contains exactly the
transformed transactions that carry a usable date — a dateless transaction is
excluded, every dated transaction of the same account is retained, and no
member of the batch lacks a date. -/
theorem c9_malformed_filtered (accId : String) (ts : List ProviderTransaction) :
    (∀ u ∈ importBatch accId ts, jsTruthy u.date = true) ∧
    (∀ t ∈ ts, jsTruthy (transformTransaction (attachAccountId accId t)).date = true →
      transformTransaction (attachAccountId accId t) ∈ importBatch accId ts) ∧
    (∀ u ∈ importBatch accId ts,
      ∃ t ∈ ts, u = transformTransaction (attachAccountId accId t)) := by
  refine ⟨?_, ?_, ?_⟩
  · intro u hu
    have := (List.mem_filter.mp hu).2
    simpa using this
  · intro t ht htr
    unfold importBatch
    refine List.mem_filter.mpr ⟨?_, by simpa using htr⟩
    rw [List.map_map]
    exact List.mem_map.mpr ⟨t, ht, rfl⟩
  · intro u hu
    have hm := (List.mem_filter.mp hu).1
    rw [List.map_map] at hm
    obtain ⟨t, ht, rfl⟩ := List.mem_map.mp hm
    exact ⟨t, ht, rfl⟩

/-- Claim C9 (witness): in a batch built from one dated and one dateless
transaction, the dated one is retained. -/
theorem c9_malformed_filtered_witness :
    transformTransaction (attachAccountId "ACC9" c9good) ∈
      importBatch "ACC9" [c9good, c9bad] :=
  (c9_malformed_filtered "ACC9" [c9good, c9bad]).2.1 c9good
    (List.mem_cons_self _ _) (by decide)

/-- Claim C3 (counterexample): with one ledger account "My Cheque Account"
and derived name "Cheque", the v6.3.1 lookup finds nothing even though
case-insensitive substring containment holds (and the spec's
exact-then-containment matcher would bind the account), so the code performs
no containment fallback. -/
theorem c3_substring_fallback_counterexample :
    matchAccount c3accounts "Cheque" = none ∧
    jsIncludes (jsToLower "My Cheque Account") (jsToLower "Cheque") = true ∧
    specClaimedMatchAccount c3accounts "Cheque" = some { id := 1, name := "My Cheque Account" } := by
  refine ⟨by decide, by decide, by decide⟩

/-- Claim C3 (amended): the Account Reconciler matches only by
case-insensitive exact equality of the trimmed, lowercased ledger-account
name with the lowercased derived name; when no ledger account matches
exactly, the provider account is treated as unmatched regardless of any
substring containment. -/
theorem c3_exact_match_only (accounts : List ActualAccount) (uniqueName : String) :
    ((∀ a ∈ accounts, jsTrim (jsToLower a.name) ≠ jsToLower uniqueName) →
      matchAccount accounts uniqueName = none) ∧
    (∀ a, matchAccount accounts uniqueName = some a →
      a ∈ accounts ∧ jsTrim (jsToLower a.name) = jsToLower uniqueName) := by
  constructor
  · intro h
    unfold matchAccount
    rw [List.find?_eq_none]
    intro a ha
    simpa using h a ha
  · intro a ha
    refine ⟨List.mem_of_find?_eq_some ha, ?_⟩
    have := List.find?_some ha
    simpa using this

/-- Claim C3 (amended, witness): a ledger account whose name differs only by
case and surrounding blanks is matched exactly; the containment-only account
is not. -/
theorem c3_exact_match_only_witness :
    matchAccount c3accounts "Cheque" = none :=
  (c3_exact_match_only c3accounts "Cheque").1 (by decide)

/-- Claim C6: on the failure path the worker's `catch` block calls
`process.exit(1)` before the `finally` block can run, so `actual.shutdown()`
is never invoked and the session lock is leaked; on the success path the
`finally` block does run the shutdown. The claim that the session is closed
on every exit path therefore fails on the handled-failure path. -/
theorem c6_shutdown_skipped_on_failure :
    (runWorkerSteps workerInit (workerEpilogue true)).shutdownCalled = false ∧
    (runWorkerSteps workerInit (workerEpilogue true)).exitCode = some 1 ∧
    (runWorkerSteps workerInit (workerEpilogue false)).shutdownCalled = true ∧
    (runWorkerSteps workerInit (workerEpilogue false)).exitCode = some 0 := by
  refine ⟨by decide, by decide, by decide, by decide⟩

/-- Claim C5 (counterexample): with a password supplied and a first download
attempt failing with an encryption-classified error, the single retry passes
the password to the download call — it is not the "retry without the
password" the claim describes (the passwordless variant is the first
attempt). -/
theorem c5_retry_direction_counterexample :
    (downloadBudgetWithRetry "B1" true c5att).1 = [false, true] ∧
    (downloadBudgetWithRetry "B1" true c5att).1.get? 1 ≠ some false := by
  refine ⟨by decide, by decide⟩

/-- Claim C5 (amended): the download makes a first attempt without the
password object; exactly one retry — with the password — happens when and
only when a password was supplied and the first attempt failed with an
encryption-classified error; on any other outcome no retry is attempted, and
there is never more than one retry. -/
theorem c5_single_bounded_retry (budgetId : String) (passwordSupplied : Bool)
    (att : Bool → Except String Unit) :
    (downloadBudgetWithRetry budgetId passwordSupplied att).1 =
      (match att false with
       | .ok _ => [false]
       | .error e => if errIsEncryptionClass e && passwordSupplied then [false, true] else [false]) ∧
    ((downloadBudgetWithRetry budgetId passwordSupplied att).1 = [false] ∨
     (downloadBudgetWithRetry budgetId passwordSupplied att).1 = [false, true]) := by
  unfold downloadBudgetWithRetry
  cases hf : att false with
  | ok _ => exact ⟨rfl, Or.inl rfl⟩
  | error e =>
    cases henc : errIsEncryptionClass e with
    | true =>
      cases passwordSupplied with
      | true =>
        cases hr : att true with
        | ok _ => exact ⟨by simp [henc], Or.inr (by simp [henc])⟩
        | error e2 => exact ⟨by simp [henc], Or.inr (by simp [henc])⟩
      | false => exact ⟨by simp [henc], Or.inl (by simp [henc])⟩
    | false =>
      cases hnf : errIsNotFoundClass e with
      | true => exact ⟨by simp [henc, hnf], Or.inl (by simp [henc, hnf])⟩
      | false => exact ⟨by simp [henc, hnf], Or.inl (by simp [henc, hnf])⟩

/-- Claim C10: a sync trigger for a profile whose id is in the
currently-executing set is rejected at once — the API answers 409 "busy" with
no state change and no actions, and the orchestrator's `runSync` guard only
logs a skip line: no worker is forked, no working directory is created, and
nothing is queued. -/
theorem c10_busy_rejected (profiles : List SyncProfileCfg) (st : OrchState) (pid : String)
    (h : pid ∈ st.processingProfiles) :
    apiSyncPost profiles st (some pid) = (st, .json 409 "busy", []) ∧
    runSyncStep profiles st pid =
      (st, [.log "info" ("Sync skipped for " ++ pid ++ " (already running)")]) ∧
    (∀ a ∈ (runSyncStep profiles st pid).2,
      a ≠ OrchAction.spawnSyncWorker pid ∧ a ≠ OrchAction.createWorkDir pid) := by
  refine ⟨?_, ?_, ?_⟩
  · simp [apiSyncPost, h]
  · simp [runSyncStep, h]
  · intro a ha
    simp [runSyncStep, h] at ha
    subst ha
    exact ⟨by simp, by simp⟩

/-- Claim C10 (witness): with profile "p1" mid-execution, a second trigger is
answered 409 "busy" with no spawn and no directory creation. -/
theorem c10_busy_rejected_witness :
    apiSyncPost c10profiles c10busyState (some "p1") = (c10busyState, .json 409 "busy", []) :=
  (c10_busy_rejected c10profiles c10busyState "p1" (by decide)).1

/-- Claim C2 (counterexample): with account "A"'s transaction fetch throwing,
the per-account loop ends in that error — account "B" is never processed and
nothing is imported, so a fetch failure aborts the run instead of being
contained. -/
theorem c2_fetch_failure_aborts_counterexample :
    processAccounts c2env [c2invA, c2invB] c2ledger 0 =
      ([], .error "Investec fetch failed") := by
  rfl

/-- Claim C2 (amended): only account-creation failures are contained — a
failed `createAccount` is logged and the loop continues with the remaining
accounts unchanged — while an uncaught transaction-fetch or import error
ends the whole run with that error: for a matched account a thrown fetch or
a thrown import aborts, and for a freshly created account a thrown fetch
aborts too, the remaining accounts left unprocessed. -/
theorem c2_partial_failure_containment (env : SyncEnv) (a : InvAccount)
    (rest : List InvAccount) (accts : List ActualAccount) (total : Nat) :
    (∀ e, matchAccount accts (deriveUniqueName a) = none →
      env.createResult (deriveUniqueName a) = .error e →
      processAccounts env (a :: rest) accts total =
        (SyncAction.createAccountCall (deriveUniqueName a) (deriveAccType a) ::
         SyncAction.createFailedLog (deriveUniqueName a) e ::
         (processAccounts env rest accts total).1,
         (processAccounts env rest accts total).2)) ∧
    (∀ m e, matchAccount accts (deriveUniqueName a) = some m →
      env.fetchResult a.accountId = .error e →
      processAccounts env (a :: rest) accts total = ([], .error e)) ∧
    (∀ m e rawTxs, matchAccount accts (deriveUniqueName a) = some m →
      env.fetchResult a.accountId = .ok rawTxs → 0 < rawTxs.length →
      env.importResult m.id (importBatch a.accountId rawTxs) = .error e →
      processAccounts env (a :: rest) accts total =
        ([SyncAction.importCall m.id (importBatch a.accountId rawTxs)], .error e)) ∧
    (∀ newId e, matchAccount accts (deriveUniqueName a) = none →
      env.createResult (deriveUniqueName a) = .ok newId →
      env.fetchResult a.accountId = .error e →
      processAccounts env (a :: rest) accts total =
        ([SyncAction.createAccountCall (deriveUniqueName a) (deriveAccType a)], .error e)) := by
  refine ⟨?_, ?_, ?_, ?_⟩
  · intro e hm hc
    have hres : resolveAccount env accts a =
        ([.createAccountCall (deriveUniqueName a) (deriveAccType a),
          .createFailedLog (deriveUniqueName a) e], none) := by
      simp only [resolveAccount]
      rw [hm, hc]
    simp [processAccounts, hres]
  · intro m e hm hf
    have hres : resolveAccount env accts a = ([], some (m, accts)) := by
      simp only [resolveAccount]
      rw [hm]
    have hfi : fetchAndImport env a m = ([], .error e) := by
      simp only [fetchAndImport]
      rw [hf]
    simp [processAccounts, hres, hfi]
  · intro m e rawTxs hm hf hlen himp
    have hres : resolveAccount env accts a = ([], some (m, accts)) := by
      simp only [resolveAccount]
      rw [hm]
    have hfi : fetchAndImport env a m =
        ([SyncAction.importCall m.id (importBatch a.accountId rawTxs)], .error e) := by
      simp only [fetchAndImport]
      rw [hf]
      simp [hlen, himp]
    simp [processAccounts, hres, hfi]
  · intro newId e hm hc hf
    have hres : resolveAccount env accts a =
        ([.createAccountCall (deriveUniqueName a) (deriveAccType a)],
         some (⟨newId, deriveUniqueName a⟩, accts ++ [⟨newId, deriveUniqueName a⟩])) := by
      simp only [resolveAccount]
      rw [hm, hc]
    have hfi : fetchAndImport env a ⟨newId, deriveUniqueName a⟩ = ([], .error e) := by
      simp only [fetchAndImport]
      rw [hf]
    simp [processAccounts, hres, hfi]

/-- Claim C2 (amended, witness): the creation-failure branch skips just
account "C" and the loop goes on; a fetch throw on matched account "A"
aborts; an import throw on matched account "A" aborts; and a fetch throw on
freshly created account "C" aborts. -/
theorem c2_partial_failure_containment_witness :
    processAccounts c2env [c2invC] c2ledger 0 =
      (SyncAction.createAccountCall (deriveUniqueName c2invC) (deriveAccType c2invC) ::
       SyncAction.createFailedLog (deriveUniqueName c2invC) "unused" ::
       (processAccounts c2env [] c2ledger 0).1,
       (processAccounts c2env [] c2ledger 0).2) ∧
    processAccounts c2env [c2invA] c2ledger 0 = ([], .error "Investec fetch failed") ∧
    processAccounts c2env2 [c2invA] c2ledger 0 =
      ([SyncAction.importCall 1 (importBatch c2invA.accountId [c9good])],
       .error "Import failed") ∧
    processAccounts c2env2 [c2invC] c2ledger 0 =
      ([SyncAction.createAccountCall (deriveUniqueName c2invC) (deriveAccType c2invC)],
       .error "fetch failed after create") :=
  ⟨(c2_partial_failure_containment c2env c2invC [] c2ledger 0).1 "unused"
      (by decide) rfl,
   (c2_partial_failure_containment c2env c2invA [] c2ledger 0).2.1
      { id := 1, name := "Acct A" } "Investec fetch failed" (by decide) rfl,
   (c2_partial_failure_containment c2env2 c2invA [] c2ledger 0).2.2.1
      { id := 1, name := "Acct A" } "Import failed" [c9good] (by decide) rfl
      (by decide) rfl,
   (c2_partial_failure_containment c2env2 c2invC [] c2ledger 0).2.2.2
      7 "fetch failed after create" (by decide) rfl rfl⟩

theorem syncCatsInGroup_spec (snapshot : List Category) (gid : Nat) :
    ∀ (ns : List String) (st : Ledger) (cnt : Nat),
      (syncCatsInGroup snapshot gid ns st cnt).1.groups = st.groups ∧
      (∃ cs, (syncCatsInGroup snapshot gid ns st cnt).1.cats = st.cats ++ cs) ∧
      st.nextId ≤ (syncCatsInGroup snapshot gid ns st cnt).1.nextId ∧
      (st.Fresh → (syncCatsInGroup snapshot gid ns st cnt).1.Fresh) := by
  intro ns
  induction ns with
  | nil =>
    intro st cnt
    exact ⟨rfl, ⟨[], by simp [syncCatsInGroup]⟩, le_refl _, id⟩
  | cons n rest ih =>
    intro st cnt
    cases hfind : (snapshot.find? (fun c => c.group_id == gid && c.name == n)).isSome with
    | true =>
      simp only [syncCatsInGroup, hfind, if_true]
      exact ih st cnt
    | false =>
      simp only [syncCatsInGroup, hfind, Bool.false_eq_true, if_false]
      obtain ⟨hg, ⟨cs, hc⟩, hn, hf⟩ := ih (createCategory n gid st) (cnt + 1)
      refine ⟨hg, ⟨⟨st.nextId, gid, n⟩ :: cs, ?_⟩, ?_, ?_⟩
      · rw [hc]; simp [createCategory]
      · exact le_trans (by simp [createCategory]) hn
      · intro hfresh
        apply hf
        unfold Ledger.Fresh createCategory at *
        constructor
        · intro g hg2
          exact Nat.lt_succ_of_lt (hfresh.1 g hg2)
        · intro c hc2
          simp at hc2
          rcases hc2 with hc2 | hc2
          · exact Nat.lt_succ_of_lt (hfresh.2 c hc2)
          · subst hc2; exact Nat.lt_succ_self _

theorem syncCatsInGroup_covers (snapshot : List Category) (gid : Nat) :
    ∀ (ns : List String) (st : Ledger) (cnt : Nat),
      (∃ d, st.cats = snapshot ++ d) →
      ∀ n ∈ ns, ∃ c', c' ∈ (syncCatsInGroup snapshot gid ns st cnt).1.cats ∧
        c'.group_id = gid ∧ c'.name = n := by
  intro ns
  induction ns with
  | nil =>
    intro st cnt _ n hn
    exact absurd hn (List.not_mem_nil n)
  | cons m rest ih =>
    intro st cnt hsnap n hn
    cases hfind : (snapshot.find? (fun c => c.group_id == gid && c.name == m)).isSome with
    | true =>
      simp only [syncCatsInGroup, hfind, if_true]
      rcases List.mem_cons.mp hn with rfl | hn'
      · obtain ⟨c'', hc''⟩ := Option.isSome_iff_exists.mp hfind
        have hprops := List.find?_some hc''
        simp only [Bool.and_eq_true, beq_iff_eq] at hprops
        have hmem : c'' ∈ st.cats := by
          obtain ⟨d, hd⟩ := hsnap
          rw [hd]
          exact List.mem_append_left _ (List.mem_of_find?_eq_some hc'')
        obtain ⟨_, ⟨cs, hcs⟩, _, _⟩ := syncCatsInGroup_spec snapshot gid rest st cnt
        refine ⟨c'', ?_, hprops.1, hprops.2⟩
        rw [hcs]
        exact List.mem_append_left _ hmem
      · exact ih st cnt hsnap n hn'
    | false =>
      simp only [syncCatsInGroup, hfind, Bool.false_eq_true, if_false]
      have hsnap1 : ∃ d, (createCategory m gid st).cats = snapshot ++ d := by
        obtain ⟨d, hd⟩ := hsnap
        exact ⟨d ++ [⟨st.nextId, gid, m⟩], by simp [createCategory, hd]⟩
      rcases List.mem_cons.mp hn with rfl | hn'
      · have hmem : (⟨st.nextId, gid, n⟩ : Category) ∈ (createCategory n gid st).cats := by
          simp [createCategory]
        obtain ⟨_, ⟨cs, hcs⟩, _, _⟩ :=
          syncCatsInGroup_spec snapshot gid rest (createCategory n gid st) (cnt + 1)
        refine ⟨⟨st.nextId, gid, n⟩, ?_, rfl, rfl⟩
        rw [hcs]
        exact List.mem_append_left _ hmem
      · exact ih (createCategory m gid st) (cnt + 1) hsnap1 n hn'

theorem syncCategoriesLoop_spec (snapshot : List Category) :
    ∀ (tax : List (String × List String)) (st : Ledger) (g c : Nat),
      (∃ gs, (syncCategoriesLoop snapshot tax st g c).1.groups = st.groups ++ gs) ∧
      (∃ cs, (syncCategoriesLoop snapshot tax st g c).1.cats = st.cats ++ cs) ∧
      st.nextId ≤ (syncCategoriesLoop snapshot tax st g c).1.nextId ∧
      (st.Fresh → (syncCategoriesLoop snapshot tax st g c).1.Fresh) := by
  intro tax
  induction tax with
  | nil =>
    intro st g c
    exact ⟨⟨[], by simp [syncCategoriesLoop]⟩, ⟨[], by simp [syncCategoriesLoop]⟩, le_refl _, id⟩
  | cons e rest ih =>
    obtain ⟨gName, catNames⟩ := e
    intro st g c
    simp only [syncCategoriesLoop, createCategoryGroup]
    cases hfind : st.groups.find? (fun gr => gr.name == gName) with
    | some gr =>
      rcases hrun : syncCatsInGroup snapshot gr.id catNames st 0 with ⟨st', c'⟩
      simp only [hrun]
      obtain ⟨hg1, ⟨cs1, hc1⟩, hn1, hf1⟩ := syncCatsInGroup_spec snapshot gr.id catNames st 0
      rw [hrun] at hg1 hc1 hn1 hf1
      obtain ⟨⟨gs2, hg2⟩, ⟨cs2, hc2⟩, hn2, hf2⟩ := ih st' g (c + c')
      exact ⟨⟨gs2, by rw [hg2, hg1]⟩, ⟨cs1 ++ cs2, by rw [hc2, hc1, List.append_assoc]⟩,
        le_trans hn1 hn2, fun hf => hf2 (hf1 hf)⟩
    | none =>
      have hfresh1 : st.Fresh →
          (Ledger.mk (st.groups ++ [⟨st.nextId, gName⟩]) st.cats (st.nextId + 1)).Fresh := by
        intro hf
        unfold Ledger.Fresh at *
        constructor
        · intro g2 hg2
          simp at hg2
          rcases hg2 with hg2 | hg2
          · exact Nat.lt_succ_of_lt (hf.1 g2 hg2)
          · subst hg2; exact Nat.lt_succ_self _
        · intro c2 hc2
          exact Nat.lt_succ_of_lt (hf.2 c2 hc2)
      cases hfind2 : (st.groups ++ [(⟨st.nextId, gName⟩ : CatGroup)]).find?
          (fun gr => gr.id == st.nextId) with
      | none =>
        simp only [hfind2]
        obtain ⟨⟨gs2, hg2⟩, ⟨cs2, hc2⟩, hn2, hf2⟩ :=
          ih ⟨st.groups ++ [⟨st.nextId, gName⟩], st.cats, st.nextId + 1⟩ (g + 1) c
        exact ⟨⟨⟨st.nextId, gName⟩ :: gs2, by rw [hg2]; simp⟩,
          ⟨cs2, by rw [hc2]⟩, le_trans (Nat.le_succ _) hn2, fun hf => hf2 (hfresh1 hf)⟩
      | some gr =>
        simp only [hfind2]
        rcases hrun : syncCatsInGroup snapshot gr.id catNames
            ⟨st.groups ++ [⟨st.nextId, gName⟩], st.cats, st.nextId + 1⟩ 0 with ⟨st', c'⟩
        simp only [hrun]
        obtain ⟨hg1, ⟨cs1, hc1⟩, hn1, hf1⟩ := syncCatsInGroup_spec snapshot gr.id catNames
          ⟨st.groups ++ [⟨st.nextId, gName⟩], st.cats, st.nextId + 1⟩ 0
        rw [hrun] at hg1 hc1 hn1 hf1
        obtain ⟨⟨gs2, hg2⟩, ⟨cs2, hc2⟩, hn2, hf2⟩ := ih st' (g + 1) (c + c')
        refine ⟨⟨⟨st.nextId, gName⟩ :: gs2, ?_⟩, ⟨cs1 ++ cs2, ?_⟩,
          le_trans (Nat.le_succ _) (le_trans hn1 hn2), fun hf => hf2 (hf1 (hfresh1 hf))⟩
        · rw [hg2, hg1]; simp
        · rw [hc2, hc1]; simp

theorem find?_append_some {α : Type} {p : α → Bool} {l₁ l₂ : List α} {x : α}
    (h : l₁.find? p = some x) : (l₁ ++ l₂).find? p = some x := by
  rw [List.find?_append, h]
  rfl

theorem groupReconciled_extend {st st' : Ledger} {e : String × List String}
    (hg : ∃ gs, st'.groups = st.groups ++ gs) (hc : ∃ cs, st'.cats = st.cats ++ cs)
    (hP : GroupReconciled st e) : GroupReconciled st' e := by
  obtain ⟨gr, hfind, hcov⟩ := hP
  obtain ⟨gs, hgs⟩ := hg
  obtain ⟨cs, hcs⟩ := hc
  refine ⟨gr, by rw [hgs]; exact find?_append_some hfind, ?_⟩
  intro n hn
  obtain ⟨c', hc', hgid, hname⟩ := hcov n hn
  exact ⟨c', by rw [hcs]; exact List.mem_append_left _ hc', hgid, hname⟩

theorem syncCategoriesLoop_establishes (snapshot : List Category) :
    ∀ (tax : List (String × List String)) (st : Ledger) (g c : Nat),
      st.Fresh → (∃ d, st.cats = snapshot ++ d) →
      ∀ e ∈ tax, GroupReconciled (syncCategoriesLoop snapshot tax st g c).1 e := by
  intro tax
  induction tax with
  | nil =>
    intro st g c _ _ e he
    exact absurd he (List.not_mem_nil e)
  | cons e0 rest ih =>
    obtain ⟨gName, catNames⟩ := e0
    intro st g c hfresh hsnap e he
    simp only [syncCategoriesLoop, createCategoryGroup]
    cases hfind : st.groups.find? (fun gr => gr.name == gName) with
    | some gr =>
      rcases hrun : syncCatsInGroup snapshot gr.id catNames st 0 with ⟨st', c'⟩
      simp only [hrun]
      obtain ⟨hg1, ⟨cs1, hc1⟩, _, hf1⟩ := syncCatsInGroup_spec snapshot gr.id catNames st 0
      rw [hrun] at hg1 hc1 hf1
      have hfresh' : st'.Fresh := hf1 hfresh
      have hsnap' : ∃ d, st'.cats = snapshot ++ d := by
        obtain ⟨d, hd⟩ := hsnap
        exact ⟨d ++ cs1, by rw [hc1, hd, List.append_assoc]⟩
      rcases List.mem_cons.mp he with rfl | he'
      · have hP' : GroupReconciled st' (gName, catNames) := by
          refine ⟨gr, by rw [hg1]; exact hfind, ?_⟩
          intro n hn
          obtain ⟨c'', hc'', hgid, hname⟩ :=
            syncCatsInGroup_covers snapshot gr.id catNames st 0 hsnap n hn
          rw [hrun] at hc''
          exact ⟨c'', hc'', hgid, hname⟩
        obtain ⟨⟨gs2, hg2⟩, ⟨cs2, hc2⟩, _, _⟩ := syncCategoriesLoop_spec snapshot rest st' g (c + c')
        exact groupReconciled_extend ⟨gs2, hg2⟩ ⟨cs2, hc2⟩ hP'
      · exact ih st' g (c + c') hfresh' hsnap' e he'
    | none =>
      cases hfind2 : (st.groups ++ [(⟨st.nextId, gName⟩ : CatGroup)]).find?
          (fun gr => gr.id == st.nextId) with
      | none =>
        exfalso
        have hnone : st.groups.find? (fun gr => gr.id == st.nextId) = none := by
          rw [List.find?_eq_none]
          intro a ha
          simpa using Nat.ne_of_lt (hfresh.1 a ha)
        rw [List.find?_append, hnone] at hfind2
        simp at hfind2
      | some gr =>
        simp only [hfind2]
        have hgr : gr = ⟨st.nextId, gName⟩ := by
          have hnone : st.groups.find? (fun gr => gr.id == st.nextId) = none := by
            rw [List.find?_eq_none]
            intro a ha
            simpa using Nat.ne_of_lt (hfresh.1 a ha)
          rw [List.find?_append, hnone] at hfind2
          simp at hfind2
          exact hfind2.symm
        have hfresh1 : (Ledger.mk (st.groups ++ [⟨st.nextId, gName⟩]) st.cats (st.nextId + 1)).Fresh := by
          unfold Ledger.Fresh at *
          constructor
          · intro g2 hg2
            simp at hg2
            rcases hg2 with hg2 | hg2
            · exact Nat.lt_succ_of_lt (hfresh.1 g2 hg2)
            · subst hg2; exact Nat.lt_succ_self _
          · intro c2 hc2
            exact Nat.lt_succ_of_lt (hfresh.2 c2 hc2)
        rcases hrun : syncCatsInGroup snapshot gr.id catNames
            ⟨st.groups ++ [⟨st.nextId, gName⟩], st.cats, st.nextId + 1⟩ 0 with ⟨st', c'⟩
        simp only [hrun]
        obtain ⟨hg1, ⟨cs1, hc1⟩, _, hf1⟩ := syncCatsInGroup_spec snapshot gr.id catNames
          ⟨st.groups ++ [⟨st.nextId, gName⟩], st.cats, st.nextId + 1⟩ 0
        rw [hrun] at hg1 hc1 hf1
        have hfresh' : st'.Fresh := hf1 hfresh1
        have hsnap' : ∃ d, st'.cats = snapshot ++ d := by
          obtain ⟨d, hd⟩ := hsnap
          exact ⟨d ++ cs1, by rw [hc1]; simp [hd]⟩
        rcases List.mem_cons.mp he with rfl | he'
        · have hP' : GroupReconciled st' (gName, catNames) := by
            refine ⟨gr, ?_, ?_⟩
            · rw [hg1, List.find?_append, hfind]
              simp [hgr]
            · intro n hn
              obtain ⟨c'', hc'', hgid, hname⟩ := syncCatsInGroup_covers snapshot gr.id catNames
                ⟨st.groups ++ [⟨st.nextId, gName⟩], st.cats, st.nextId + 1⟩ 0 hsnap n hn
              rw [hrun] at hc''
              exact ⟨c'', hc'', hgid, hname⟩
          obtain ⟨⟨gs2, hg2⟩, ⟨cs2, hc2⟩, _, _⟩ :=
            syncCategoriesLoop_spec snapshot rest st' (g + 1) (c + c')
          exact groupReconciled_extend ⟨gs2, hg2⟩ ⟨cs2, hc2⟩ hP'
        · exact ih st' (g + 1) (c + c') hfresh' hsnap' e he'

theorem syncCatsInGroup_noop (snapshot : List Category) (gid : Nat) :
    ∀ (ns : List String) (st : Ledger) (cnt : Nat),
      (∀ n ∈ ns, ∃ c' ∈ snapshot, c'.group_id = gid ∧ c'.name = n) →
      syncCatsInGroup snapshot gid ns st cnt = (st, cnt) := by
  intro ns
  induction ns with
  | nil =>
    intro st cnt _
    rfl
  | cons n rest ih =>
    intro st cnt hcov
    obtain ⟨c', hc', hgid, hname⟩ := hcov n (List.mem_cons_self n rest)
    have hfind : (snapshot.find? (fun c => c.group_id == gid && c.name == n)).isSome := by
      rw [List.find?_isSome]
      exact ⟨c', hc', by simp [hgid, hname]⟩
    simp only [syncCatsInGroup, hfind, if_true]
    exact ih st cnt (fun m hm => hcov m (List.mem_cons_of_mem n hm))

theorem syncCategoriesLoop_noop (st : Ledger) :
    ∀ (tax : List (String × List String)) (g c : Nat),
      (∀ e ∈ tax, GroupReconciled st e) →
      syncCategoriesLoop st.cats tax st g c = (st, g, c) := by
  intro tax
  induction tax with
  | nil =>
    intro g c _
    rfl
  | cons e0 rest ih =>
    obtain ⟨gName, catNames⟩ := e0
    intro g c hrec
    obtain ⟨gr, hfind, hcov⟩ := hrec (gName, catNames) (List.mem_cons_self _ rest)
    simp only [syncCategoriesLoop, hfind]
    have hrun : syncCatsInGroup st.cats gr.id catNames st 0 = (st, 0) :=
      syncCatsInGroup_noop st.cats gr.id catNames st 0 hcov
    simp only [hrun, Nat.add_zero]
    exact ih g c (fun e he => hrec e (List.mem_cons_of_mem _ he))

/-- Claim C4: the Category Reconciler is additive and idempotent — on any run
over a fresh-id ledger state it only appends missing groups and categories
(every pre-existing group and category survives unchanged, in place), and a
second run with the same taxonomy on the resulting state performs zero group
creations and zero category creations and leaves the state untouched. -/
theorem c4_additive_idempotent (tax : List (String × List String)) (st0 : Ledger)
    (h : st0.Fresh) :
    (∃ gs cs, (syncCategories tax st0).1.groups = st0.groups ++ gs ∧
              (syncCategories tax st0).1.cats = st0.cats ++ cs) ∧
    syncCategories tax (syncCategories tax st0).1 = ((syncCategories tax st0).1, 0, 0) := by
  obtain ⟨⟨gs, hgs⟩, ⟨cs, hcs⟩, _, hfresh1⟩ := syncCategoriesLoop_spec st0.cats tax st0 0 0
  constructor
  · exact ⟨gs, cs, hgs, hcs⟩
  · have hrec : ∀ e ∈ tax, GroupReconciled (syncCategories tax st0).1 e :=
      syncCategoriesLoop_establishes st0.cats tax st0 0 0 h ⟨[], by simp⟩
    exact syncCategoriesLoop_noop (syncCategories tax st0).1 tax 0 0 hrec

/-- Claim C4 (witness): on a ledger with one unrelated group and category and
the taxonomy of one Food group with one Groceries category, the run only
appends and the second run is a no-op with zero creations. -/
theorem c4_additive_idempotent_witness :
    (∃ gs cs, (syncCategories c4tax c4ledger).1.groups = c4ledger.groups ++ gs ∧
              (syncCategories c4tax c4ledger).1.cats = c4ledger.cats ++ cs) ∧
    syncCategories c4tax (syncCategories c4tax c4ledger).1 =
      ((syncCategories c4tax c4ledger).1, 0, 0) :=
  c4_additive_idempotent c4tax c4ledger (by decide)
